import Mathlib

/-!
Shallow embedding of the request header transformer of the iflow-manager
repository (file `ccr config/plugins/header.js`), together with theorems
settling the specification claims about it.

Modelling conventions:
- JavaScript numbers that can become `NaN` (the key cursor, updated by
  `(keyIndex + 1) % apiKeys.length`, which is `NaN` in JS when the pool is
  empty) are modelled by `JsNum`.
- The random source behind `Math.random() * 16 | 0` is an explicit stream
  `Nat → Fin 16`; the wall clock behind `Date.now()` is an explicit `Nat`
  argument; both are threaded into `transformRequestIn`.
- The optional logger (`this.logger?.debug(...)`) is modelled as an optional
  record whose `debug` method may throw, returning `Except E Unit`; the
  transform propagates such an exception, exactly as the JS code does
  (there is no try/catch around the `debug` call).
- `crypto.createHmac("sha256", key).update(msg, "utf8").digest("hex")` is
  modelled by an executable HMAC-SHA-256 implementation over byte lists
  (`Nat` values below 256), with UTF-8 encoding of strings.
-/

namespace Iflow

set_option maxRecDepth 100000

/-- Model of a JavaScript number as used for the key cursor: either a
natural number or `NaN` (obtained from `x % 0`). -/
inductive JsNum where
  | nan : JsNum
  | int : Nat → JsNum
deriving DecidableEq

/-- JavaScript `x + 1` on the cursor; `NaN + 1 = NaN`. -/
def jsAdd1 : JsNum → JsNum
  | JsNum.nan => JsNum.nan
  | JsNum.int n => JsNum.int (n + 1)

/-- JavaScript `x % m` for a natural modulus: `x % 0 = NaN` and
`NaN % m = NaN`. -/
def jsMod : JsNum → Nat → JsNum
  | JsNum.nan, _ => JsNum.nan
  | JsNum.int n, m => if m = 0 then JsNum.nan else JsNum.int (n % m)

/-- JavaScript array indexing `l[i]`: out-of-range and `NaN` indices give
`undefined`, modelled as `none`. -/
def jsIndex (l : List String) : JsNum → Option String
  | JsNum.nan => none
  | JsNum.int n => l.get? n

/-- JavaScript string interpolation of a number (`NaN` prints as "NaN"). -/
def jsNumToString : JsNum → String
  | JsNum.nan => "NaN"
  | JsNum.int n => toString n

/-- JavaScript `String.prototype.split` with a one-character separator,
on the character list of the string.  `"".split(sep)` gives `[""]`. -/
def splitChar (sep : Char) : List Char → List (List Char)
  | [] => [[]]
  | c :: cs =>
    if c = sep then [] :: splitChar sep cs
    else
      match splitChar sep cs with
      | [] => [[c]]
      | s :: ss => (c :: s) :: ss

/-- JavaScript `String.prototype.trim`: drop whitespace at both ends. -/
def jsTrim (cs : List Char) : List Char :=
  ((cs.dropWhile Char.isWhitespace).reverse.dropWhile Char.isWhitespace).reverse

/-- Embedding of line 11 of header.js:
`provider.apiKey.split(",").map(k => k.trim()).filter(k => k)`. -/
def parseKeys (s : String) : List String :=
  ((splitChar ',' s.toList).map (fun seg => String.mk (jsTrim seg))).filter
    (fun k => k ≠ "")

/-- JavaScript truthiness of the optional `provider.apiKey` string:
`undefined` and the empty string are falsy. -/
def truthy : Option String → Bool
  | none => false
  | some s => s != ""

/-- Lowercase hexadecimal digits `0..9, a..f`, as produced by
`v.toString(16)` for `v` below 16: code points 48-57 then 97-102. -/
def hexChars : List Char :=
  (List.range 16).map (fun n => Char.ofNat (if n < 10 then 48 + n else 87 + n))

/-- Lowercase hexadecimal digit of `n % 16`. -/
def nibbleChar (n : Nat) : Char := hexChars.getD (n % 16) '0'

/-- The template string used by `generateSessionId`. -/
def sessionTemplate : String := "xxxxxxxx-xxxx-4xxx-yxxx-xxxxxxxxxxxx"

/-- Embedding of the replace callback loop of `generateSessionId`: each
`x` or `y` consumes one random draw `r` from the stream; `x` becomes
`r.toString(16)` and `y` becomes `(r & 0x3 | 0x8).toString(16)`; every
other character is kept. -/
def replaceXY : List Char → (Nat → Fin 16) → Nat → List Char
  | [], _, _ => []
  | c :: cs, rng, n =>
    if c = 'x' then nibbleChar (rng n).val :: replaceXY cs rng (n + 1)
    else if c = 'y' then
      nibbleChar (((rng n).val &&& 3) ||| 8) :: replaceXY cs rng (n + 1)
    else c :: replaceXY cs rng n

/-- Embedding of `generateSessionId` of header.js, with the random source
made explicit. -/
def generateSessionId (rng : Nat → Fin 16) : String :=
  String.mk (replaceXY sessionTemplate.toList rng 0)

/-- UTF-8 encoding of one character, as a list of bytes. -/
def utf8EncodeChar (c : Char) : List Nat :=
  let n := c.toNat
  if n < 128 then [n]
  else if n < 2048 then [192 ||| (n >>> 6), 128 ||| (n &&& 63)]
  else if n < 65536 then
    [224 ||| (n >>> 12), 128 ||| ((n >>> 6) &&& 63), 128 ||| (n &&& 63)]
  else
    [240 ||| (n >>> 18), 128 ||| ((n >>> 12) &&& 63),
     128 ||| ((n >>> 6) &&& 63), 128 ||| (n &&& 63)]

/-- UTF-8 encoding of a string, as a list of bytes. -/
def utf8Bytes (s : String) : List Nat := (s.toList.map utf8EncodeChar).flatten

/-- The modulus for 32-bit words. -/
def w32 : Nat := 4294967296

/-- Right rotation of a 32-bit word. -/
def rotr (n x : Nat) : Nat := ((x >>> n) ||| (x <<< (32 - n))) % w32

def bigS0 (x : Nat) : Nat := rotr 2 x ^^^ rotr 13 x ^^^ rotr 22 x

def bigS1 (x : Nat) : Nat := rotr 6 x ^^^ rotr 11 x ^^^ rotr 25 x

def smallS0 (x : Nat) : Nat := rotr 7 x ^^^ rotr 18 x ^^^ (x >>> 3)

def smallS1 (x : Nat) : Nat := rotr 17 x ^^^ rotr 19 x ^^^ (x >>> 10)

def chF (x y z : Nat) : Nat := (x &&& y) ^^^ ((x ^^^ 4294967295) &&& z)

def majF (x y z : Nat) : Nat := (x &&& y) ^^^ (x &&& z) ^^^ (y &&& z)

/-- The eight working variables of SHA-256. -/
structure Hash8 where
  a : Nat
  b : Nat
  c : Nat
  d : Nat
  e : Nat
  f : Nat
  g : Nat
  h : Nat

/-- SHA-256 round constants (FIPS 180-4), written in decimal. -/
def sha256K : List Nat :=
  [1116352408, 1899447441, 3049323471, 3921009573,
   961987163, 1508970993, 2453635748, 2870763221,
   3624381080, 310598401, 607225278, 1426881987,
   1925078388, 2162078206, 2614888103, 3248222580,
   3835390401, 4022224774, 264347078, 604807628,
   770255983, 1249150122, 1555081692, 1996064986,
   2554220882, 2821834349, 2952996808, 3210313671,
   3336571891, 3584528711, 113926993, 338241895,
   666307205, 773529912, 1294757372, 1396182291,
   1695183700, 1986661051, 2177026350, 2456956037,
   2730485921, 2820302411, 3259730800, 3345764771,
   3516065817, 3600352804, 4094571909, 275423344,
   430227734, 506948616, 659060556, 883997877,
   958139571, 1322822218, 1537002063, 1747873779,
   1955562222, 2024104815, 2227730452, 2361852424,
   2428436474, 2756734187, 3204031479, 3329325298]

/-- SHA-256 initial hash value (FIPS 180-4), written in decimal. -/
def initH : Hash8 :=
  ⟨1779033703, 3144134277, 1013904242, 2773480762,
   1359893119, 2600822924, 528734635, 1541459225⟩

/-- Group a byte list into big-endian 32-bit words. -/
def wordsOfBytes : List Nat → List Nat
  | b0 :: b1 :: b2 :: b3 :: rest =>
    (((b0 * 256 + b1) * 256 + b2) * 256 + b3) :: wordsOfBytes rest
  | _ => []

/-- Append the next word of the SHA-256 message schedule. -/
def extendStep (ws : List Nat) : List Nat :=
  let t := ws.length
  ws ++ [(smallS1 (ws.getD (t - 2) 0) + ws.getD (t - 7) 0 +
          smallS0 (ws.getD (t - 15) 0) + ws.getD (t - 16) 0) % w32]

/-- Iterate the message schedule extension. -/
def extendWords : Nat → List Nat → List Nat
  | 0, ws => ws
  | n + 1, ws => extendWords n (extendStep ws)

/-- One SHA-256 compression round, consuming a pair of a round constant
and a schedule word. -/
def roundStep (st : Hash8) (kw : Nat × Nat) : Hash8 :=
  let t1 := (st.h + bigS1 st.e + chF st.e st.f st.g + kw.1 + kw.2) % w32
  let t2 := (bigS0 st.a + majF st.a st.b st.c) % w32
  ⟨(t1 + t2) % w32, st.a, st.b, st.c, (st.d + t1) % w32, st.e, st.f, st.g⟩

/-- Pointwise modular addition of two hash states. -/
def addHash (x y : Hash8) : Hash8 :=
  ⟨(x.a + y.a) % w32, (x.b + y.b) % w32, (x.c + y.c) % w32, (x.d + y.d) % w32,
   (x.e + y.e) % w32, (x.f + y.f) % w32, (x.g + y.g) % w32, (x.h + y.h) % w32⟩

/-- Process one 64-byte block. -/
def processBlock (h : Hash8) (block : List Nat) : Hash8 :=
  let ws := extendWords 48 (wordsOfBytes block)
  addHash h ((sha256K.zip ws).foldl roundStep h)

/-- Big-endian byte expansion of `n` into `k` bytes. -/
def beBytes : Nat → Nat → List Nat
  | 0, _ => []
  | k + 1, n => beBytes k (n / 256) ++ [n % 256]

/-- Split a list into chunks of 64, with an explicit structural fuel. -/
def chunks64 : Nat → List Nat → List (List Nat)
  | 0, _ => []
  | _, [] => []
  | fuel + 1, l => l.take 64 :: chunks64 fuel (l.drop 64)

/-- SHA-256 padding: append `0x80`, zeros, and the 64-bit big-endian bit
length, reaching a multiple of 64 bytes. -/
def padMessage (msg : List Nat) : List Nat :=
  msg ++ 128 :: List.replicate ((64 - (msg.length + 9) % 64) % 64) 0 ++
    beBytes 8 (msg.length * 8)

/-- SHA-256 of a byte list, as a list of 32 bytes. -/
def sha256 (msg : List Nat) : List Nat :=
  let padded := padMessage msg
  let fin := (chunks64 padded.length padded).foldl processBlock initH
  ([fin.a, fin.b, fin.c, fin.d, fin.e, fin.f, fin.g, fin.h].map (beBytes 4)).flatten

/-- Lowercase hexadecimal rendering of a byte list. -/
def bytesToHex (bs : List Nat) : String :=
  String.mk ((bs.map (fun b => [nibbleChar (b / 16), nibbleChar b])).flatten)

/-- HMAC-SHA-256 over byte lists (block size 64). -/
def hmacSha256 (key msg : List Nat) : List Nat :=
  let k0 := if 64 < key.length then sha256 key else key
  let kp := k0 ++ List.replicate (64 - k0.length) 0
  sha256 ((kp.map (fun b => b ^^^ 92)) ++ sha256 ((kp.map (fun b => b ^^^ 54)) ++ msg))

/-- Model of `crypto.createHmac("sha256", key).update(msg, "utf8").digest("hex")`. -/
def hmacSha256Hex (key msg : String) : String :=
  bytesToHex (hmacSha256 (utf8Bytes key) (utf8Bytes msg))

/-- The message template of `generateSignature`:
the template literal `${userAgent}:${sessionId}:${timestamp}`. -/
def signMessage (ua sid : String) (ts : Nat) : String :=
  ua ++ ":" ++ sid ++ ":" ++ toString ts

/-- Embedding of `generateSignature` of header.js.  The guard
`if (!apiKey) return null` is taken by both a missing key (`undefined`)
and a present but empty key, since both are falsy in JavaScript. -/
def generateSignature (ua sid : String) (ts : Nat) (apiKey : Option String) :
    Option String :=
  match apiKey with
  | none => none
  | some k => if k = "" then none else some (hmacSha256Hex k (signMessage ua sid ts))

/-- The fixed header set produced by one call, with `null` modelled as
`none` for the signature. -/
structure Headers where
  userAgent : String
  sessionId : String
  conversationId : String
  xIflowTimestamp : String
  xIflowSignature : Option String
deriving DecidableEq

/-- The value returned by `transformRequestIn`: the request body passed
through, and the header overrides under `config.headers`. -/
structure TransformResult (Req : Type) where
  body : Req
  headers : Headers

/-- The injected logging sink: its `debug` method may itself throw,
modelled by `Except E Unit`. -/
structure Logger (E : Type) where
  debug : String → Except E Unit

/-- The provider descriptor: an optional comma-separated key string and an
optional logger. -/
structure Provider (E : Type) where
  apiKey : Option String
  logger : Option (Logger E)

/-- The mutable fields of the `HeaderTransformer` class instance. -/
structure TState where
  keyIndex : JsNum
  apiKeys : List String
deriving DecidableEq

/-- The field initializers of the class: `keyIndex = 0`, `apiKeys = []`. -/
def TState.fresh : TState := ⟨JsNum.int 0, []⟩

/-- Embedding of lines 10-12 of header.js: the pool used by the current
call, after the conditional re-parse
`if (this.apiKeys.length === 0 && provider.apiKey) ...`. -/
def poolAfterInit {E : Type} (st : TState) (p : Provider E) : List String :=
  if st.apiKeys.length = 0 ∧ truthy p.apiKey then parseKeys (p.apiKey.getD "")
  else st.apiKeys

/-- Embedding of line 14 of header.js:
`const currentApiKey = this.apiKeys[this.keyIndex]`. -/
def selectedKey {E : Type} (st : TState) (p : Provider E) : Option String :=
  jsIndex (poolAfterInit st p) st.keyIndex

/-- Embedding of line 15 of header.js:
`this.keyIndex = (this.keyIndex + 1) % this.apiKeys.length`. -/
def nextKeyIndex {E : Type} (st : TState) (p : Provider E) : JsNum :=
  jsMod (jsAdd1 st.keyIndex) (poolAfterInit st p).length

/-- The instance state after one call: the possibly re-parsed pool and the
advanced cursor. -/
def stepState {E : Type} (st : TState) (p : Provider E) : TState :=
  ⟨nextKeyIndex st p, poolAfterInit st p⟩

/-- The constant user agent of line 17 of header.js. -/
def userAgentConst : String := "iFlow-Cli"

/-- The template literal passed to `this.logger?.debug(...)` on line 22,
which reads the already advanced `this.keyIndex` and the selected key. -/
def debugMessage (st2 : TState) (currentApiKey : Option String) : String :=
  "当前请求使用密钥索引: " ++ jsNumToString st2.keyIndex ++ ", 密钥: " ++
    (match currentApiKey with
     | none => "undefined"
     | some k => String.mk (k.toList.take 8)) ++ "..."

/-- Embedding of `transformRequestIn` of header.js.  The first component
is the instance state after the call (the mutations on lines 11 and 15
happen before the logger call, so they survive a throwing logger); the
second component is the returned value, or the exception thrown by the
injected logger `debug` method, which the source does not catch. -/
def transformRequestIn {E Req : Type} (st : TState) (req : Req) (p : Provider E)
    (rng : Nat → Fin 16) (now : Nat) : TState × Except E (TransformResult Req) :=
  let currentApiKey := selectedKey st p
  let st2 := stepState st p
  let ua := userAgentConst
  let sid := generateSessionId rng
  let signature := generateSignature ua sid now currentApiKey
  let logResult : Except E Unit :=
    match p.logger with
    | none => Except.ok ()
    | some lg => lg.debug (debugMessage st2 currentApiKey)
  (st2,
    logResult.map (fun _ =>
      { body := req
        headers :=
          { userAgent := ua
            sessionId := sid
            conversationId := ""
            xIflowTimestamp := toString now
            xIflowSignature := signature } }))

/-- The instance state after `n` calls on a fresh transformer, all against
the same provider descriptor. -/
def runState {E : Type} (p : Provider E) : Nat → TState
  | 0 => TState.fresh
  | n + 1 => stepState (runState p n) p

/-- The instance states reachable from a fresh transformer by any sequence
of calls, against arbitrary provider descriptors. -/
inductive Reachable : TState → Prop where
  | fresh : Reachable TState.fresh
  | step {st : TState} {E : Type} (p : Provider E) :
      Reachable st → Reachable (stepState st p)

/-!
Shared lemmas about the embedding.
-/

/-- Sanity check of the SHA-256 implementation against the standard
test vector for the empty message. -/
theorem sha256_empty_vector :
    bytesToHex (sha256 []) =
      "e3b0c44298fc1c149afbf4c8996fb92427ae41e4649b934ca495991b7852b855" := by
  decide

/-- Sanity check of the HMAC-SHA-256 implementation against test case 2
of RFC 4231. -/
theorem hmac_rfc4231_case2 :
    hmacSha256Hex "Jefe" "what do ya want for nothing?" =
      "5bdcc146bf60754e6a042426089575c75a003f089d2739839dec58b964ec3843" := by
  decide

theorem mem_parseKeys_ne_empty {s k : String} (h : k ∈ parseKeys s) : k ≠ "" := by
  have := List.of_mem_filter h
  simpa using this

theorem reachable_keys_ne_empty {st : TState} (h : Reachable st) :
    ∀ k ∈ st.apiKeys, k ≠ "" := by
  induction h with
  | fresh => intro k hk; simp [TState.fresh] at hk
  | step p _ ih =>
    intro k hk
    unfold stepState poolAfterInit at hk
    simp only at hk
    split at hk
    · exact mem_parseKeys_ne_empty hk
    · exact ih k hk

theorem selectedKey_mem {E : Type} {st : TState} {p : Provider E} {k : String}
    (h : selectedKey st p = some k) : k ∈ poolAfterInit st p := by
  unfold selectedKey jsIndex at h
  cases hidx : st.keyIndex with
  | nan => rw [hidx] at h; cases h
  | int n => rw [hidx] at h; exact List.get?_mem h

theorem transform_fst {E Req : Type} (st : TState) (req : Req) (p : Provider E)
    (rng : Nat → Fin 16) (now : Nat) :
    (transformRequestIn st req p rng now).1 = stepState st p := rfl

theorem transform_snd_ok {E Req : Type} {st : TState} {req : Req} {p : Provider E}
    {rng : Nat → Fin 16} {now : Nat} {r : TransformResult Req}
    (h : (transformRequestIn st req p rng now).2 = Except.ok r) :
    r = { body := req
          headers :=
            { userAgent := userAgentConst
              sessionId := generateSessionId rng
              conversationId := ""
              xIflowTimestamp := toString now
              xIflowSignature :=
                generateSignature userAgentConst (generateSessionId rng) now
                  (selectedKey st p) } } := by
  unfold transformRequestIn at h
  simp only at h
  cases hl : p.logger with
  | none =>
    rw [hl] at h
    simp only [Except.map] at h
    exact (Except.ok.inj h).symm
  | some lg =>
    rw [hl] at h
    simp only at h
    cases hd : lg.debug (debugMessage (stepState st p) (selectedKey st p)) with
    | error e => rw [hd] at h; simp [Except.map] at h
    | ok u => rw [hd] at h; simp only [Except.map] at h; exact (Except.ok.inj h).symm

theorem poolAfterInit_stable {E : Type} (st : TState) (p : Provider E)
    (h : st.apiKeys ≠ []) : poolAfterInit st p = st.apiKeys := by
  unfold poolAfterInit
  rw [if_neg]
  intro hc
  exact h (List.length_eq_zero.mp hc.1)

theorem poolAfterInit_fresh {E : Type} (p : Provider E) (s : String)
    (hp : p.apiKey = some s) (hs : s ≠ "") :
    poolAfterInit TState.fresh p = parseKeys s := by
  unfold poolAfterInit TState.fresh
  rw [if_pos, hp]
  · rfl
  · refine ⟨rfl, ?_⟩
    rw [hp]
    simpa [truthy] using hs

/-!
Claim theorems.
-/

/-- C1.  The claim says that a call on an empty pool leaves the cursor at
0.  The code instead computes `(0 + 1) % 0`, which is `NaN` in JavaScript,
so after the call the cursor is `NaN` and not 0.  The remaining parts of
the claim do hold at this input: the call succeeds, selects no key, and
emits the absence marker `null` as the signature. -/
theorem emptyPoolCall_sets_cursor_nan :
    (transformRequestIn TState.fresh () (⟨none, none⟩ : Provider Unit)
        (fun _ => 0) 0).1.keyIndex = JsNum.nan ∧
    JsNum.nan ≠ JsNum.int 0 ∧
    (transformRequestIn TState.fresh () (⟨none, none⟩ : Provider Unit)
        (fun _ => 0) 0).2 =
      Except.ok
        { body := ()
          headers :=
            { userAgent := "iFlow-Cli"
              sessionId := generateSessionId (fun _ => 0)
              conversationId := ""
              xIflowTimestamp := toString 0
              xIflowSignature := none } } :=
  ⟨rfl, by decide, rfl⟩

/-- C4.  A call made while the pool stays empty sets the cursor to `NaN`
(the JS result of modulo by zero), and a `NaN` cursor is absorbing: any
later call, with any provider descriptor (even one whose `apiKey` is
present and parses to a non-empty pool), selects no credential, emits the
absence marker as the signature, and leaves the cursor at `NaN`. -/
theorem nan_cursor_poisons_state {E Req : Type} :
    (∀ (st : TState) (p : Provider E), st.apiKeys = [] → truthy p.apiKey = false →
      (stepState st p).keyIndex = JsNum.nan) ∧
    (∀ (st : TState) (p : Provider E) (req : Req) (rng : Nat → Fin 16) (now : Nat),
      st.keyIndex = JsNum.nan →
      selectedKey st p = none ∧
      (transformRequestIn st req p rng now).1.keyIndex = JsNum.nan ∧
      ∀ r, (transformRequestIn st req p rng now).2 = Except.ok r →
        r.headers.xIflowSignature = none) := by
  constructor
  · intro st p h1 h2
    unfold stepState nextKeyIndex poolAfterInit
    simp only [h1, h2]
    cases st.keyIndex <;> simp [jsAdd1, jsMod]
  · intro st p req rng now h
    have hsel : selectedKey st p = none := by
      unfold selectedKey jsIndex
      rw [h]
    refine ⟨hsel, ?_, ?_⟩
    · rw [transform_fst]
      unfold stepState nextKeyIndex jsAdd1
      rw [h]
      rfl
    · intro r hr
      rw [transform_snd_ok hr]
      simp [hsel, generateSignature]

/-- Witness for C4 at concrete inputs: the first call of a fresh
transformer with no `apiKey` yields a `NaN` cursor, and from a `NaN`
cursor a later call whose provider does carry `apiKey = "k1"` still
selects no key, keeps the `NaN` cursor, and emits a null signature. -/
theorem nan_cursor_poisons_state_witness :
    (stepState TState.fresh (⟨none, none⟩ : Provider Unit)).keyIndex = JsNum.nan ∧
    selectedKey (⟨JsNum.nan, []⟩ : TState) (⟨some "k1", none⟩ : Provider Unit) = none ∧
    (transformRequestIn (⟨JsNum.nan, []⟩ : TState) ()
        (⟨some "k1", none⟩ : Provider Unit) (fun _ => 0) 5).1.keyIndex = JsNum.nan ∧
    ({ body := ()
       headers :=
         { userAgent := "iFlow-Cli"
           sessionId := generateSessionId (fun _ => 0)
           conversationId := ""
           xIflowTimestamp := toString 5
           xIflowSignature := none } } : TransformResult Unit).headers.xIflowSignature =
      none :=
  ⟨(@nan_cursor_poisons_state Unit Unit).1 TState.fresh ⟨none, none⟩ rfl rfl,
   ((@nan_cursor_poisons_state Unit Unit).2 ⟨JsNum.nan, []⟩
      ⟨some "k1", none⟩ () (fun _ => 0) 5 rfl).1,
   ((@nan_cursor_poisons_state Unit Unit).2 ⟨JsNum.nan, []⟩
      ⟨some "k1", none⟩ () (fun _ => 0) 5 rfl).2.1,
   ((@nan_cursor_poisons_state Unit Unit).2 ⟨JsNum.nan, []⟩
      ⟨some "k1", none⟩ () (fun _ => 0) 5 rfl).2.2 _ rfl⟩

/-- C5, counterexample.  A first call with no `apiKey` leaves the pool
empty, and the second call, whose provider now carries `apiKey = "k1"`,
re-parses and changes the pool: so it is not true that at most the first
call may change the pool. -/
theorem second_call_reparses_pool :
    (transformRequestIn
        (transformRequestIn TState.fresh () (⟨none, none⟩ : Provider Unit)
          (fun _ => 0) 0).1
        () (⟨some "k1", none⟩ : Provider Unit) (fun _ => 0) 0).1.apiKeys ≠
      (transformRequestIn TState.fresh () (⟨none, none⟩ : Provider Unit)
        (fun _ => 0) 0).1.apiKeys := by
  decide

/-- C5, amended.  The pool is re-parsed on any invocation where the pool
is still empty and `provider.apiKey` is truthy, not only on the first
invocation; once the pool is non-empty, no later call ever changes it,
even if `provider.apiKey` changes. -/
theorem pool_reparsed_whenever_empty {E Req : Type} (st : TState) (req : Req)
    (p : Provider E) (rng : Nat → Fin 16) (now : Nat) :
    (st.apiKeys ≠ [] → (transformRequestIn st req p rng now).1.apiKeys = st.apiKeys) ∧
    (st.apiKeys = [] → ∀ s, p.apiKey = some s → s ≠ "" →
      (transformRequestIn st req p rng now).1.apiKeys = parseKeys s) ∧
    (st.apiKeys = [] → truthy p.apiKey = false →
      (transformRequestIn st req p rng now).1.apiKeys = []) := by
  refine ⟨?_, ?_, ?_⟩
  · intro h
    rw [transform_fst]
    exact poolAfterInit_stable st p h
  · intro h s hp hs
    rw [transform_fst]
    show poolAfterInit st p = parseKeys s
    unfold poolAfterInit
    rw [if_pos, hp]
    · rfl
    · refine ⟨by simp [h], ?_⟩
      rw [hp]
      simpa [truthy] using hs
  · intro h ht
    rw [transform_fst]
    show poolAfterInit st p = []
    unfold poolAfterInit
    rw [if_neg, h]
    simp [ht]

/-- Witness for C5 (amended) at concrete inputs: a non-empty pool is kept
unchanged even though the provider offers a different key string; an empty
pool is parsed from a present key string; an empty pool with an absent key
string stays empty. -/
theorem pool_reparsed_whenever_empty_witness :
    (transformRequestIn (⟨JsNum.int 0, ["a"]⟩ : TState) ()
        (⟨some "zzz", none⟩ : Provider Unit) (fun _ => 0) 0).1.apiKeys = ["a"] ∧
    (transformRequestIn TState.fresh ()
        (⟨some " k1 , k2 ,,k3 ", none⟩ : Provider Unit) (fun _ => 0) 0).1.apiKeys =
      parseKeys " k1 , k2 ,,k3 " ∧
    (transformRequestIn TState.fresh () (⟨none, none⟩ : Provider Unit)
        (fun _ => 0) 0).1.apiKeys = [] :=
  ⟨(pool_reparsed_whenever_empty (⟨JsNum.int 0, ["a"]⟩ : TState) ()
      (⟨some "zzz", none⟩ : Provider Unit) (fun _ => 0) 0).1 (by decide),
   (pool_reparsed_whenever_empty TState.fresh ()
      (⟨some " k1 , k2 ,,k3 ", none⟩ : Provider Unit) (fun _ => 0) 0).2.1 rfl
      " k1 , k2 ,,k3 " rfl (by decide),
   (pool_reparsed_whenever_empty TState.fresh () (⟨none, none⟩ : Provider Unit)
      (fun _ => 0) 0).2.2 rfl rfl⟩

/-- C6, counterexample.  A present but empty key does not produce a
computed HMAC: the guard `if (!apiKey) return null` also fires on the
empty string, which is falsy in JavaScript, so the signature is the
absence marker. -/
theorem empty_key_signature_is_null :
    generateSignature "iFlow-Cli" "sid" 0 (some "") = none := rfl

/-- C6, amended.  The signature is the absence marker exactly when the
key is missing or a present but empty string; every non-empty key yields
the computed HMAC; and parsed pools never contain the empty string, so a
call can only reach the absence marker through a missing key. -/
theorem signature_null_iff_key_falsy :
    (∀ (ua sid : String) (ts : Nat) (k : Option String),
      generateSignature ua sid ts k = none ↔ k = none ∨ k = some "") ∧
    (∀ (ua sid : String) (ts : Nat) (k : String), k ≠ "" →
      generateSignature ua sid ts (some k) =
        some (hmacSha256Hex k (signMessage ua sid ts))) ∧
    (∀ s : String, "" ∉ parseKeys s) := by
  refine ⟨?_, ?_, ?_⟩
  · intro ua sid ts k
    cases k with
    | none => simp [generateSignature]
    | some k =>
      by_cases hk : k = "" <;> simp [generateSignature, hk]
  · intro ua sid ts k hk
    simp [generateSignature, hk]
  · intro s h
    exact mem_parseKeys_ne_empty h rfl

/-- Witness for C6 (amended) at concrete inputs. -/
theorem signature_null_iff_key_falsy_witness :
    (generateSignature "ua" "sid" 7 none = none ↔
      (none : Option String) = none ∨ (none : Option String) = some "") ∧
    generateSignature "ua" "sid" 7 (some "key") =
      some (hmacSha256Hex "key" (signMessage "ua" "sid" 7)) ∧
    "" ∉ parseKeys "a,b" :=
  ⟨signature_null_iff_key_falsy.1 "ua" "sid" 7 none,
   signature_null_iff_key_falsy.2.1 "ua" "sid" 7 "key" (by decide),
   signature_null_iff_key_falsy.2.2 "a,b"⟩

/-- C7, counterexample.  The source guards only the absence of the logger
with optional chaining; a present logger whose `debug` method throws makes
`transformRequestIn` propagate the exception to its caller. -/
theorem throwing_logger_propagates :
    (transformRequestIn TState.fresh ()
        (⟨some "k1", some ⟨fun _ => Except.error "boom"⟩⟩ : Provider String)
        (fun _ => 0) 0).2 = Except.error "boom" := rfl

/-- C7, amended.  The operation never raises for an absent logger, and in
particular not for an empty credential configuration or empty pool; with a
present logger it raises exactly when the injected `debug` method raises. -/
theorem transform_total_unless_logger_throws {E Req : Type} (st : TState) (req : Req)
    (p : Provider E) (rng : Nat → Fin 16) (now : Nat) :
    (p.logger = none → ∃ r, (transformRequestIn st req p rng now).2 = Except.ok r) ∧
    (∀ lg, p.logger = some lg → (∀ m, lg.debug m = Except.ok ()) →
      ∃ r, (transformRequestIn st req p rng now).2 = Except.ok r) := by
  constructor
  · intro h
    unfold transformRequestIn
    simp only [h]
    exact ⟨_, rfl⟩
  · intro lg hl hd
    unfold transformRequestIn
    simp only [hl, hd]
    exact ⟨_, rfl⟩

/-- Witness for C7 (amended) at concrete inputs: an absent logger, and a
present logger whose `debug` never throws. -/
theorem transform_total_unless_logger_throws_witness :
    (∃ r, (transformRequestIn TState.fresh () (⟨none, none⟩ : Provider Unit)
      (fun _ => 0) 0).2 = Except.ok r) ∧
    (∃ r, (transformRequestIn TState.fresh ()
      (⟨some "k1", some ⟨fun _ => Except.ok ()⟩⟩ : Provider Unit)
      (fun _ => 0) 0).2 = Except.ok r) :=
  ⟨(transform_total_unless_logger_throws TState.fresh ()
      (⟨none, none⟩ : Provider Unit) (fun _ => 0) 0).1 rfl,
   (transform_total_unless_logger_throws TState.fresh ()
      (⟨some "k1", some ⟨fun _ => Except.ok ()⟩⟩ : Provider Unit) (fun _ => 0) 0).2
      ⟨fun _ => Except.ok ()⟩ rfl (fun _ => rfl)⟩

/-- C8, counterexample.  The first call of a fresh transformer whose
provider carries `apiKey = "k1"` mutates persistent state other than the
cursor: the credential pool field changes from `[]` to `["k1"]`. -/
theorem first_call_mutates_pool_state :
    (transformRequestIn TState.fresh () (⟨some "k1", none⟩ : Provider Unit)
        (fun _ => 0) 0).1.apiKeys ≠ TState.fresh.apiKeys := by
  decide

/-- C8, amended.  The returned body is the request value unmodified, the
only header output is the fixed header record, and the only persistent
state the call mutates is the cursor and — exactly on calls where the pool
is empty and `apiKey` is truthy — the lazily initialized pool; once the
pool is non-empty only the cursor changes. -/
theorem transform_frame_conditions {E Req : Type} (st : TState) (req : Req)
    (p : Provider E) (rng : Nat → Fin 16) (now : Nat) :
    (∀ r, (transformRequestIn st req p rng now).2 = Except.ok r → r.body = req) ∧
    (transformRequestIn st req p rng now).1 = stepState st p ∧
    (st.apiKeys ≠ [] →
      (transformRequestIn st req p rng now).1 = ⟨nextKeyIndex st p, st.apiKeys⟩) := by
  refine ⟨?_, rfl, ?_⟩
  · intro r hr
    rw [transform_snd_ok hr]
  · intro h
    rw [transform_fst]
    unfold stepState
    rw [poolAfterInit_stable st p h]

/-- Witness for C8 (amended) at concrete inputs, with a non-empty pool. -/
theorem transform_frame_conditions_witness :
    TransformResult.body
        { body := ()
          headers :=
            { userAgent := "iFlow-Cli"
              sessionId := generateSessionId (fun _ => 0)
              conversationId := ""
              xIflowTimestamp := toString 0
              xIflowSignature :=
                generateSignature "iFlow-Cli" (generateSessionId (fun _ => 0)) 0
                  (some "k1") } } = () ∧
    (transformRequestIn (⟨JsNum.int 0, ["k1"]⟩ : TState) ()
        (⟨none, none⟩ : Provider Unit) (fun _ => 0) 0).1 =
      stepState (⟨JsNum.int 0, ["k1"]⟩ : TState) (⟨none, none⟩ : Provider Unit) ∧
    (transformRequestIn (⟨JsNum.int 0, ["k1"]⟩ : TState) ()
        (⟨none, none⟩ : Provider Unit) (fun _ => 0) 0).1 =
      ⟨nextKeyIndex (⟨JsNum.int 0, ["k1"]⟩ : TState) (⟨none, none⟩ : Provider Unit),
       ["k1"]⟩ :=
  ⟨(transform_frame_conditions (⟨JsNum.int 0, ["k1"]⟩ : TState) ()
      (⟨none, none⟩ : Provider Unit) (fun _ => 0) 0).1 _ rfl,
   (transform_frame_conditions (⟨JsNum.int 0, ["k1"]⟩ : TState) ()
      (⟨none, none⟩ : Provider Unit) (fun _ => 0) 0).2.1,
   (transform_frame_conditions (⟨JsNum.int 0, ["k1"]⟩ : TState) ()
      (⟨none, none⟩ : Provider Unit) (fun _ => 0) 0).2.2 (by decide)⟩

theorem parseKeys_empty_string : parseKeys "" = [] := rfl

theorem runState_formula {E : Type} (p : Provider E) (s : String)
    (hp : p.apiKey = some s) (hne : parseKeys s ≠ []) :
    ∀ n, runState p (n + 1) =
      ⟨JsNum.int ((n + 1) % (parseKeys s).length), parseKeys s⟩ := by
  have hs : s ≠ "" := by
    intro h
    rw [h, parseKeys_empty_string] at hne
    exact hne rfl
  have hN : (parseKeys s).length ≠ 0 := by
    simpa [List.length_eq_zero] using hne
  intro n
  induction n with
  | zero =>
    show stepState TState.fresh p = _
    unfold stepState nextKeyIndex
    rw [poolAfterInit_fresh p s hp hs]
    simp [TState.fresh, jsAdd1, jsMod, hN]
  | succ n ih =>
    show stepState (runState p (n + 1)) p = _
    rw [ih]
    unfold stepState nextKeyIndex
    rw [poolAfterInit_stable _ _ hne]
    simp [jsAdd1, jsMod, hN, Nat.mod_add_mod]

/-- C2.  Starting from a fresh transformer, with a provider whose key
string parses to a non-empty pool of `N` keys, the call with 0-based index
`i` selects the pool entry at index `i mod N` and leaves the cursor at
`(i + 1) mod N`: in particular `N` consecutive calls use each key exactly
once, in configured order, before repeating. -/
theorem round_robin_key_selection {E : Type} (p : Provider E) (s : String)
    (hp : p.apiKey = some s) (hne : parseKeys s ≠ []) (i : Nat) :
    selectedKey (runState p i) p = (parseKeys s).get? (i % (parseKeys s).length) ∧
    (runState p (i + 1)).keyIndex = JsNum.int ((i + 1) % (parseKeys s).length) := by
  have hs : s ≠ "" := by
    intro h
    rw [h, parseKeys_empty_string] at hne
    exact hne rfl
  constructor
  · cases i with
    | zero =>
      show selectedKey TState.fresh p = _
      unfold selectedKey
      rw [poolAfterInit_fresh p s hp hs, Nat.zero_mod]
      rfl
    | succ j =>
      rw [runState_formula p s hp hne j]
      unfold selectedKey
      rw [poolAfterInit_stable _ _ hne]
      rfl
  · rw [runState_formula p s hp hne i]

/-- Witness for C2 at the concrete pool of the specification example:
with `apiKey = "abc12345,def67890"`, the second call (index 1) selects the
second key and leaves the cursor at `2 % 2 = 0`, and the third call
(index 2) selects the first key again. -/
theorem round_robin_key_selection_witness :
    (selectedKey (runState (⟨some "abc12345,def67890", none⟩ : Provider Unit) 1)
        (⟨some "abc12345,def67890", none⟩ : Provider Unit) =
      (parseKeys "abc12345,def67890").get? (1 % (parseKeys "abc12345,def67890").length) ∧
    (runState (⟨some "abc12345,def67890", none⟩ : Provider Unit) 2).keyIndex =
      JsNum.int (2 % (parseKeys "abc12345,def67890").length)) ∧
    selectedKey (runState (⟨some "abc12345,def67890", none⟩ : Provider Unit) 2)
        (⟨some "abc12345,def67890", none⟩ : Provider Unit) =
      (parseKeys "abc12345,def67890").get? (2 % (parseKeys "abc12345,def67890").length) :=
  ⟨round_robin_key_selection (⟨some "abc12345,def67890", none⟩ : Provider Unit)
    "abc12345,def67890" rfl (by decide) 1,
   (round_robin_key_selection (⟨some "abc12345,def67890", none⟩ : Provider Unit)
    "abc12345,def67890" rfl (by decide) 2).1⟩

/-- Restatement of the specification words for the pool parser, used as
the comparison point for the refinement claim C9: split the string on
commas (using the Mathlib list splitter), trim whitespace from each
segment, and discard empty segments, preserving order. -/
def specPool (s : String) : List String :=
  ((s.toList.splitOn ',').map (fun seg => String.mk (jsTrim seg))).filter
    (fun k => k ≠ "")

theorem splitChar_eq_splitOn (sep : Char) :
    ∀ l : List Char, splitChar sep l = l.splitOn sep := by
  intro l
  induction l with
  | nil => rfl
  | cons c cs ih =>
    unfold splitChar
    by_cases h : c = sep
    · rw [if_pos h, ih]
      simp [List.splitOn, List.splitOnP_cons, h]
    · rw [if_neg h, ih]
      obtain ⟨hd, tl, heq⟩ :=
        List.exists_cons_of_ne_nil (List.splitOnP_ne_nil (· == sep) cs)
      simp [List.splitOn, List.splitOnP_cons, h, heq]

/-- C9.  The credential pool parser agrees, on every configuration
string, with the specification reading (split on commas, trim each
segment, drop empty segments, in order), and parses the example string
`" k1 , k2 ,,k3 "` to `["k1", "k2", "k3"]`. -/
theorem parseKeys_matches_spec :
    (∀ s, parseKeys s = specPool s) ∧
    parseKeys " k1 , k2 ,,k3 " = ["k1", "k2", "k3"] := by
  constructor
  · intro s
    unfold parseKeys specPool
    rw [splitChar_eq_splitOn]
  · decide

/-- The per-position relation between a template character and an output
character of the session id: `x` yields a lowercase hex digit, `y` yields
one of `8`, `9`, `a`, `b`, and every other character is copied. -/
def xySpec (t o : Char) : Prop :=
  if t = 'x' then o ∈ hexChars
  else if t = 'y' then o ∈ (['8', '9', 'a', 'b'] : List Char)
  else o = t

theorem nibbleChar_mem_hexChars (n : Nat) : nibbleChar n ∈ hexChars := by
  have h : ∀ k : Fin 16, hexChars.getD k.val '0' ∈ hexChars := by decide
  exact h ⟨n % 16, Nat.mod_lt _ (by omega)⟩

theorem nibbleChar_variant_mem :
    ∀ r : Fin 16, nibbleChar ((r.val &&& 3) ||| 8) ∈ (['8', '9', 'a', 'b'] : List Char) := by
  decide

theorem replaceXY_forall₂ (cs : List Char) :
    ∀ (rng : Nat → Fin 16) (n : Nat), List.Forall₂ xySpec cs (replaceXY cs rng n) := by
  induction cs with
  | nil => intro rng n; exact List.Forall₂.nil
  | cons c cs ih =>
    intro rng n
    unfold replaceXY
    by_cases hx : c = 'x'
    · rw [if_pos hx]
      refine List.Forall₂.cons ?_ (ih rng (n + 1))
      rw [hx]
      simp only [xySpec, if_pos rfl]
      exact nibbleChar_mem_hexChars _
    · by_cases hy : c = 'y'
      · rw [if_neg hx, if_pos hy]
        refine List.Forall₂.cons ?_ (ih rng (n + 1))
        rw [hy]
        simp only [xySpec, if_neg (by decide : ¬('y' = 'x')), if_pos rfl]
        exact nibbleChar_variant_mem _
      · rw [if_neg hx, if_neg hy]
        refine List.Forall₂.cons ?_ (ih rng n)
        simp [xySpec, hx, hy]

theorem forall₂_getD {R : Char → Char → Prop} {l1 l2 : List Char}
    (h : List.Forall₂ R l1 l2) :
    ∀ i, i < l1.length → R (l1.getD i ' ') (l2.getD i ' ') := by
  induction h with
  | nil => intro i hi; simp at hi
  | cons hr hrest ih =>
    intro i hi
    cases i with
    | zero => simpa using hr
    | succ j =>
      simp only [List.getD_cons_succ]
      exact ih j (by simpa using hi)

/-- C10.  For every draw sequence of the random source, the generated
session id is a 36-character string with hyphens exactly at the 0-based
positions 8, 13, 18, 23 (1-based 9, 14, 19, 24), the character `4` at the
version nibble (0-based position 14), a variant nibble in `{8, 9, a, b}`
at 0-based position 19, and lowercase hex digits everywhere else. -/
theorem session_id_uuid_v4_shape (rng : Nat → Fin 16) :
    (generateSessionId rng).length = 36 ∧
    (∀ i ∈ ([8, 13, 18, 23] : List Nat),
      (generateSessionId rng).toList.getD i ' ' = '-') ∧
    (generateSessionId rng).toList.getD 14 ' ' = '4' ∧
    (generateSessionId rng).toList.getD 19 ' ' ∈ (['8', '9', 'a', 'b'] : List Char) ∧
    (∀ i, i < 36 → i ∉ ([8, 13, 18, 23] : List Nat) →
      (generateSessionId rng).toList.getD i ' ' ∈ hexChars) := by
  have hf := replaceXY_forall₂ sessionTemplate.toList rng 0
  have htlen : sessionTemplate.toList.length = 36 := by decide
  have hlen : (replaceXY sessionTemplate.toList rng 0).length = 36 := by
    rw [← hf.length_eq]
    exact htlen
  have hpt : ∀ i, i < 36 →
      xySpec (sessionTemplate.toList.getD i ' ')
        ((generateSessionId rng).toList.getD i ' ') := by
    intro i hi
    exact forall₂_getD hf i (by rw [htlen]; exact hi)
  refine ⟨hlen, ?_, ?_, ?_, ?_⟩
  · intro i hi
    fin_cases hi
    · have h8 := hpt 8 (by omega)
      rw [show sessionTemplate.toList.getD 8 ' ' = '-' from by decide] at h8
      simpa [xySpec] using h8
    · have h13 := hpt 13 (by omega)
      rw [show sessionTemplate.toList.getD 13 ' ' = '-' from by decide] at h13
      simpa [xySpec] using h13
    · have h18 := hpt 18 (by omega)
      rw [show sessionTemplate.toList.getD 18 ' ' = '-' from by decide] at h18
      simpa [xySpec] using h18
    · have h23 := hpt 23 (by omega)
      rw [show sessionTemplate.toList.getD 23 ' ' = '-' from by decide] at h23
      simpa [xySpec] using h23
  · have h14 := hpt 14 (by omega)
    rw [show sessionTemplate.toList.getD 14 ' ' = '4' from by decide] at h14
    simpa [xySpec] using h14
  · have h19 := hpt 19 (by omega)
    rw [show sessionTemplate.toList.getD 19 ' ' = 'y' from by decide] at h19
    simpa [xySpec] using h19
  · intro i hi hni
    have hall : ∀ j, j < 36 → j ∉ ([8, 13, 18, 23] : List Nat) →
        (sessionTemplate.toList.getD j ' ' = 'x' ∨
         sessionTemplate.toList.getD j ' ' = 'y' ∨
         sessionTemplate.toList.getD j ' ' = '4') := by
      decide
    have hp := hpt i hi
    rcases hall i hi hni with h | h | h <;> rw [h] at hp
    · simpa [xySpec] using hp
    · have hmem : (generateSessionId rng).toList.getD i ' ' ∈
          (['8', '9', 'a', 'b'] : List Char) := by
        simpa [xySpec] using hp
      have hsub : ∀ c ∈ (['8', '9', 'a', 'b'] : List Char), c ∈ hexChars := by decide
      exact hsub _ hmem
    · have h4 : (generateSessionId rng).toList.getD i ' ' = '4' := by
        simpa [xySpec] using hp
      rw [h4]
      decide

/-- Witness for C10 at a concrete draw stream. -/
theorem session_id_uuid_v4_shape_witness :
    (generateSessionId (fun _ => 0)).length = 36 ∧
    (generateSessionId (fun _ => 0)).toList.getD 8 ' ' = '-' ∧
    (generateSessionId (fun _ => 0)).toList.getD 0 ' ' ∈ hexChars :=
  ⟨(session_id_uuid_v4_shape (fun _ => 0)).1,
   (session_id_uuid_v4_shape (fun _ => 0)).2.1 8 (by decide),
   (session_id_uuid_v4_shape (fun _ => 0)).2.2.2.2 0 (by decide) (by decide)⟩

theorem bytesToHex_chars (bs : List Nat) :
    ∀ c ∈ (bytesToHex bs).toList, c ∈ hexChars := by
  intro c hc
  rw [show (bytesToHex bs).toList =
      ((bs.map (fun b => [nibbleChar (b / 16), nibbleChar b])).flatten) from rfl] at hc
  rcases List.mem_flatten.mp hc with ⟨l, hl, hcl⟩
  rcases List.mem_map.mp hl with ⟨b, _, rfl⟩
  simp only [List.mem_cons, List.not_mem_nil, or_false] at hcl
  rcases hcl with rfl | rfl <;> exact nibbleChar_mem_hexChars _

theorem poolAfterInit_keys_ne_empty {E : Type} {st : TState} {p : Provider E}
    (hst : Reachable st) : ∀ k ∈ poolAfterInit st p, k ≠ "" := by
  intro k hk
  unfold poolAfterInit at hk
  split at hk
  · exact mem_parseKeys_ne_empty hk
  · exact reachable_keys_ne_empty hst k hk

/-- C3.  On every call in which a credential is selected (in any state
reachable from a fresh transformer), the emitted signature header is the
lowercase hex HMAC-SHA-256, keyed by the selected credential, of the UTF-8
bytes of the emitted user agent, session id and timestamp headers joined
by colons — so recomputing the HMAC from the emitted header values
reproduces the signature exactly. -/
theorem signature_is_hmac_of_selected_key {E Req : Type} (st : TState)
    (hst : Reachable st) (p : Provider E) (req : Req) (rng : Nat → Fin 16)
    (now : Nat) (k : String) (hk : selectedKey st p = some k) :
    ∀ r, (transformRequestIn st req p rng now).2 = Except.ok r →
      r.headers.xIflowSignature =
        some (hmacSha256Hex k
          (r.headers.userAgent ++ ":" ++ r.headers.sessionId ++ ":" ++
            r.headers.xIflowTimestamp)) ∧
      r.headers.userAgent = userAgentConst ∧
      r.headers.sessionId = generateSessionId rng ∧
      r.headers.xIflowTimestamp = toString now ∧
      ∀ c ∈ (hmacSha256Hex k
          (signMessage userAgentConst (generateSessionId rng) now)).toList,
        c ∈ hexChars := by
  intro r hr
  have hkne : k ≠ "" := poolAfterInit_keys_ne_empty hst k (selectedKey_mem hk)
  rw [transform_snd_ok hr]
  refine ⟨?_, rfl, rfl, rfl, bytesToHex_chars _⟩
  rw [hk]
  simp [generateSignature, hkne, signMessage]

/-- Witness for C3 at a concrete call selecting the key "k1". -/
theorem signature_is_hmac_of_selected_key_witness :
    ∃ r, (transformRequestIn TState.fresh () (⟨some "k1", none⟩ : Provider Unit)
        (fun _ => 0) 0).2 = Except.ok r ∧
      r.headers.xIflowSignature =
        some (hmacSha256Hex "k1"
          (r.headers.userAgent ++ ":" ++ r.headers.sessionId ++ ":" ++
            r.headers.xIflowTimestamp)) := by
  refine ⟨_, rfl, ?_⟩
  exact (signature_is_hmac_of_selected_key TState.fresh Reachable.fresh
    (⟨some "k1", none⟩ : Provider Unit) () (fun _ => 0) 0 "k1" (by decide) _ rfl).1

end Iflow
